import Mathlib

/-!
Verification of the ibp-monitor health-monitoring core.

Shallow embedding of the three components of the ibp-monitor pipeline:

* the check executor (`src/workers/f-check-service.js`): `getDomain`,
  `getEndpoint`, `performCheckError`, `retryFn`, `checkService`, and the
  status classification of `performCheck`;
* the alerting engine (`AlertsEngine.run`): the two history queries and the
  four alert rules 100-103;
* the gossip dispatcher (`src/monitor/lib/MessageHandler.js`):
  `handleMessage` for the `/ibp/services` and `/ibp/healthCheck` topics.

JavaScript conventions used throughout the embedding: a value that may be
`null`/`undefined` is an `Option`; a JS exception is the `error` branch of
an `Except`; machine timestamps and block numbers are `Int` milliseconds /
block heights; the process-wide side effects of a function (DNS override,
queue submissions, retry sleeps) are returned as explicit event lists.
-/

/-! ## Check executor: `src/workers/f-check-service.js` -/

/-- A JS `Error` as the worker observes it: destructured into
`{name, message}` (see `performCheckError`). -/
structure JsError where
  name : String
  message : String
deriving DecidableEq, Repr

/-- `serializeError({name, message})`: on a plain `{name, message}` object the
serialization is the identity. -/
def serializeError (e : JsError) : JsError := e

/-- `member` field of a check job's data. -/
structure Member where
  id : String
  serviceIpAddress : String
deriving DecidableEq, Repr

/-- `service` field of a check job's data. -/
structure ServiceRef where
  id : String
  chainId : String
deriving DecidableEq, Repr

/-- `job.data` of a check job: `{subdomain, member, service, monitorId}`. -/
structure CheckJob where
  subdomain : String
  member : Member
  service : ServiceRef
  monitorId : String
deriving DecidableEq, Repr

/-- `getDomain = (subdomain = 'rpc') => `${subdomain}.dotters.network`` -/
def getDomain (subdomain : String) : String :=
  subdomain ++ ".dotters.network"

/-- `getEndpoint = (subdomain, chain) => `wss://${getDomain(subdomain)}/${chain}`` -/
def getEndpoint (subdomain : String) (chain : String) : String :=
  "wss://" ++ getDomain subdomain ++ "/" ++ chain

/-- The `record` object built by `performCheckError`. -/
structure ErrorRecord where
  monitorId : String
  memberId : String
  serviceId : String
  endpoint : String
  ip_address : String
  error : JsError
  performance : Int
deriving DecidableEq, Repr

/-- The result object returned by `performCheckError`: `status: 'error'`,
`peerId: null`, `record.performance: -1`. -/
structure ErrorResult where
  monitorId : String
  serviceId : String
  memberId : String
  peerId : Option String
  source : String
  type : String
  status : String
  record : ErrorRecord
deriving DecidableEq, Repr

/-- `performCheckError(error, job)` from `f-check-service.js`. -/
def performCheckError (e : JsError) (job : CheckJob) : ErrorResult :=
  { monitorId := job.monitorId
    serviceId := job.service.id
    memberId := job.member.id
    peerId := none
    source := "check"
    type := "service_check"
    status := "error"
    record :=
      { monitorId := job.monitorId
        memberId := job.member.id
        serviceId := job.service.id
        endpoint := getEndpoint job.subdomain job.service.chainId
        ip_address := job.member.serviceIpAddress
        error := serializeError { name := e.name, message := e.message }
        performance := -1 } }

/-- One invocation of the check function `fn` either returns a result object
(`ok`, of the caller's result type `α`) or throws a JS error. The check
function itself performs network RPC and is out of scope; the wrapper sees
only this outcome, indexed by the attempt number (0-based). -/
inductive CheckOutcome (α : Type) where
  | ok (r : α)
  | err (e : JsError)
deriving DecidableEq, Repr

/-- Observable side effects of `checkService`/`retryFn`, in program order:
the `setDNS`/`clearDNS` calls (evil-dns override add/remove), each attempt
of the check function, and each inter-attempt sleep. -/
inductive CheckEv where
  | setDNS (domain : String) (ip : String)
  | clearDNS (domain : String) (ip : String)
  | attempt (idx : Nat)
  | delay (intervalMs : Int)
deriving DecidableEq, Repr

/-- The value `retryFn` resolves to: the check function's own result object
on a successful attempt, or the `performCheckError` object. -/
inductive RetryResult (α : Type) where
  | fromCheck (r : α)
  | fromError (r : ErrorResult)
deriving DecidableEq, Repr

/-- `retryFn(fn, job, retriesLeft = 3, interval = 1000)` from
`f-check-service.js`, with its side effects made explicit.  `k` is the
0-based index of the current attempt (the JS function carries no such index;
it is threaded here only so that `fn` can be an arbitrary per-attempt
behaviour).  Mirrors the source: try `fn`; on an error named `RpcError`
return `performCheckError` at once; otherwise if `retriesLeft` is truthy
(non-zero) sleep `interval` ms and recurse with `retriesLeft - 1`; otherwise
return `performCheckError`. -/
def retryFn {α : Type} (fn : Nat → CheckOutcome α) (job : CheckJob)
    (interval : Int) : Nat → Nat → RetryResult α × List CheckEv
  | retriesLeft, k =>
    match fn k with
    | .ok r => (.fromCheck r, [CheckEv.attempt k])
    | .err e =>
      if e.name = "RpcError" then
        (.fromError (performCheckError e job), [CheckEv.attempt k])
      else
        match retriesLeft with
        | 0 => (.fromError (performCheckError e job), [CheckEv.attempt k])
        | n + 1 =>
          let rest := retryFn fn job interval n (k + 1)
          (rest.1, CheckEv.attempt k :: CheckEv.delay interval :: rest.2)

/-- `checkService(job)` from `f-check-service.js`: amend DNS for the job's
subdomain to the member's service IP, run `retryFn(performCheck, job, 3,
1000)`, clear DNS, return the result.  The check function is a parameter
(its network behaviour is out of scope); the DNS override and restore are
recorded as events around the whole retry trace. -/
def checkService {α : Type} (fn : Nat → CheckOutcome α) (job : CheckJob) :
    RetryResult α × List CheckEv :=
  let domain := getDomain job.subdomain
  let retried := retryFn fn job (1 * 1000) 3 0
  (retried.1,
    CheckEv.setDNS domain job.member.serviceIpAddress ::
      retried.2 ++ [CheckEv.clearDNS domain job.member.serviceIpAddress])

/-- `cfg.performance?.sla || 500` from `performCheck`: JS `||` falls back on
any falsy value, so a missing *or zero* configured SLA yields 500. -/
def slaOrDefault (sla : Option Int) : Int :=
  match sla with
  | none => 500
  | some s => if s = 0 then 500 else s

/-- The status classification of `performCheck` (line 127 of
`f-check-service.js`): `timing > (cfg.performance?.sla || 500) ? 'warning'
: 'success'`. -/
def performCheckStatus (timing : Int) (sla : Option Int) : String :=
  if timing > slaOrDefault sla then "warning" else "success"

/-- Number of check attempts recorded in a trace. -/
def countAttempts (tr : List CheckEv) : Nat :=
  tr.countP fun e => match e with | CheckEv.attempt _ => true | _ => false

/-- Number of inter-attempt sleeps recorded in a trace. -/
def countDelays (tr : List CheckEv) : Nat :=
  tr.countP fun e => match e with | CheckEv.delay _ => true | _ => false

/-- Number of DNS-override installations recorded in a trace. -/
def countSetDNS (tr : List CheckEv) : Nat :=
  tr.countP fun e => match e with | CheckEv.setDNS _ _ => true | _ => false

/-- Number of DNS-override removals recorded in a trace. -/
def countClearDNS (tr : List CheckEv) : Nat :=
  tr.countP fun e => match e with | CheckEv.clearDNS _ _ => true | _ => false

/-! ## Alerting engine: `AlertsEngine.run` -/

/-- `record.syncState` of a HealthCheck, as the alert rules read it:
only its `currentBlock` field is consulted. -/
structure SyncState where
  currentBlock : Int
deriving DecidableEq, Repr

/-- The `record` payload of a HealthCheck as the alerting engine reads it:
an optional `syncState`, the `finalizedBlock` height, the `performance`
measurement, and an optional `error` (rule 100's message source). -/
structure HCRecord where
  syncState : Option SyncState
  finalizedBlock : Int
  performance : Int
  error : Option JsError
deriving DecidableEq, Repr

/-- A HealthCheck row as the alerting engine reads it.  `status` is
`none` when the column is null, otherwise one of `"success"`,
`"warning"`, `"error"`; `createdAt` is a millisecond timestamp. -/
structure HealthCheck where
  id : Nat
  memberId : String
  serviceId : String
  status : Option String
  createdAt : Int
  record : HCRecord
deriving DecidableEq, Repr

/-- Alerting-engine configuration: `cfg.alertsEngine` of `config.js`. -/
structure AlertsEngineCfg where
  enabled : Bool
  queueName : String
  blockDrift : Int
deriving DecidableEq, Repr

/-- The configuration surface `AlertsEngine.run` consumes:
`cfg.alertsEngine` and `cfg.performance.sla`. -/
structure AlertsCfg where
  alertsEngine : AlertsEngineCfg
  sla : Int
deriving DecidableEq, Repr

/-- The reference configuration from `config.js`: `sla: 500`,
`blockDrift: 20`, queue `alerts` (with `enabled` left as a parameter since
`config.local.js` overrides it). -/
def referenceCfg (enabled : Bool) : AlertsCfg :=
  { alertsEngine := { enabled := enabled, queueName := "alerts", blockDrift := 20 }
    sla := 500 }

/-- An alert job as enqueued by `AlertsEngine.run`. -/
structure AlertJob where
  code : Nat
  severity : String
  message : String
  memberId : String
  serviceId : String
  healthCheckId : Nat
  healthChecks : List HealthCheck
deriving DecidableEq, Repr

/-- The most recent element of a list of HealthChecks (the effect of
`order: [['createdAt', 'DESC']]` followed by `findOne`). -/
def mostRecent (l : List HealthCheck) : Option HealthCheck :=
  l.foldl
    (fun acc h =>
      match acc with
      | none => some h
      | some b => if h.createdAt > b.createdAt then some h else some b)
    none

/-- The `previousHealthCheck` query of `AlertsEngine.run`: same
`memberId` and `serviceId` as `cur`, `status: "success"`, `createdAt`
before `now - 60 * 1000`, most recent first. -/
def findPrevious (checks : List HealthCheck) (cur : HealthCheck) (now : Int) :
    Option HealthCheck :=
  mostRecent (checks.filter fun h =>
    h.memberId = cur.memberId ∧ h.serviceId = cur.serviceId ∧
      h.status = some "success" ∧ h.createdAt < now - 60 * 1000)

/-- The `otherMemberHealthCheck` query of `AlertsEngine.run`: a different
`memberId`, same `serviceId`, `status: "success"`, `createdAt` before
`now - 60 * 1000` and after `now - 10 * 60 * 1000`, most recent first. -/
def findOtherMember (checks : List HealthCheck) (cur : HealthCheck) (now : Int) :
    Option HealthCheck :=
  mostRecent (checks.filter fun h =>
    h.memberId ≠ cur.memberId ∧ h.serviceId = cur.serviceId ∧
      h.status = some "success" ∧
      h.createdAt < now - 60 * 1000 ∧ h.createdAt > now - 10 * 60 * 1000)

/-- The rule-100 job: service down, severity high, message from
`record.error` with the "Error message not available" fallback. -/
def alertJob100 (cur : HealthCheck) : AlertJob :=
  { code := 100
    severity := "high"
    message :=
      match cur.record.error with
      | some e => e.message
      | none => "Error message not available"
    memberId := cur.memberId
    serviceId := cur.serviceId
    healthCheckId := cur.id
    healthChecks := [cur] }

/-- The rule-101 job: best block halted, severity high, justified by
`[current, previous]`. -/
def alertJob101 (cur p : HealthCheck) (cs : SyncState) : AlertJob :=
  { code := 101
    severity := "high"
    message :=
      "Best block is halted at block #" ++ toString cs.currentBlock ++
        " since the last Health Check #" ++ toString p.id
    memberId := cur.memberId
    serviceId := cur.serviceId
    healthCheckId := cur.id
    healthChecks := [cur, p] }

/-- The rule-102 job: finalized block drifting, severity medium. -/
def alertJob102 (cur : HealthCheck) (blockDrift : Int) : AlertJob :=
  { code := 102
    severity := "medium"
    message :=
      "Finalized block #" ++ toString cur.record.finalizedBlock ++
        " drifting by more than " ++ toString blockDrift ++ " blocks"
    memberId := cur.memberId
    serviceId := cur.serviceId
    healthCheckId := cur.id
    healthChecks := [cur] }

/-- The rule-103 job: response time above the SLA, severity low. -/
def alertJob103 (cur : HealthCheck) : AlertJob :=
  { code := 103
    severity := "low"
    message :=
      "Service response time " ++ toString cur.record.performance ++
        "ms is higher than expected"
    memberId := cur.memberId
    serviceId := cur.serviceId
    healthCheckId := cur.id
    healthChecks := [cur] }

/-- `// ALERT_CODE_100` block of `AlertsEngine.run`. -/
def rule100 (cur : HealthCheck) : List AlertJob :=
  if cur.status = some "error" then [alertJob100 cur] else []

/-- `// ALERT_CODE_101` block of `AlertsEngine.run`: guarded by a non-null
`current.status` and both query results being non-null, then all three
statuses `"success"`, then all three `record.syncState` defined, then
`previous.currentBlock == current.currentBlock` and
`otherMember.currentBlock != current.currentBlock`. -/
def rule101 (cur : HealthCheck) (prev other : Option HealthCheck) :
    List AlertJob :=
  match prev, other with
  | some p, some o =>
    if cur.status.isSome then
      if p.status = some "success" ∧ cur.status = some "success" ∧
          o.status = some "success" then
        match p.record.syncState, cur.record.syncState, o.record.syncState with
        | some ps, some cs, some os =>
          if ps.currentBlock = cs.currentBlock ∧ os.currentBlock ≠ cs.currentBlock
          then [alertJob101 cur p cs]
          else []
        | _, _, _ => []
      else []
    else []
  | _, _ => []

/-- `// ALERT_CODE_102` block of `AlertsEngine.run`: on a `"success"`
check with a defined `syncState`, fire when
`syncState.currentBlock - record.finalizedBlock` reaches the configured
`blockDrift` threshold. -/
def rule102 (cfg : AlertsCfg) (cur : HealthCheck) : List AlertJob :=
  if cur.status = some "success" then
    match cur.record.syncState with
    | some cs =>
      let blockDrift := cs.currentBlock - cur.record.finalizedBlock
      if blockDrift ≥ cfg.alertsEngine.blockDrift then [alertJob102 cur blockDrift]
      else []
    | none => []
  else []

/-- `// ALERT_CODE_103` block of `AlertsEngine.run`: on a `"success"`
check, fire when `record.performance` strictly exceeds `cfg.performance.sla`. -/
def rule103 (cfg : AlertsCfg) (cur : HealthCheck) : List AlertJob :=
  if cur.status = some "success" then
    if cur.record.performance > cfg.sla then [alertJob103 cur] else []
  else []

namespace AlertsEngine

/-- `AlertsEngine.run(currentHealthCheck)`: a no-op when alerting is
disabled; otherwise perform the two history queries against the stored
HealthChecks (`checks`, at time `now`) and evaluate the four rules in
order, returning the list of jobs added to the alerts queue. -/
def run (cfg : AlertsCfg) (checks : List HealthCheck) (now : Int)
    (cur : HealthCheck) : List AlertJob :=
  if cfg.alertsEngine.enabled = false then []
  else
    rule100 cur ++
      rule101 cur (findPrevious checks cur now) (findOtherMember checks cur now) ++
      rule102 cfg cur ++ rule103 cfg cur

end AlertsEngine

/-! ## Gossip dispatcher: `src/monitor/lib/MessageHandler.js`

Inbound payloads are UTF-8 JSON.  `JSON.parse` is a JS builtin; its outcome
is modelled as `Except String Json` (the `error` branch is the thrown
`SyntaxError`).  Property access on the decoded value follows JS semantics:
reading a property of `null` throws a `TypeError`, reading a missing
property of any other value yields `undefined` (here `none`). -/

/-- A decoded JSON value. -/
inductive Json where
  | null
  | bool (b : Bool)
  | num (n : Int)
  | str (s : String)
  | arr (elems : List Json)
  | obj (fields : List (String × Json))
deriving Repr

mutual

/-- Structural equality of JSON values. -/
def jsonBeq : Json → Json → Bool
  | .null, .null => true
  | .bool a, .bool b => a == b
  | .num a, .num b => a == b
  | .str a, .str b => a == b
  | .arr a, .arr b => jsonListBeq a b
  | .obj a, .obj b => jsonObjBeq a b
  | _, _ => false

/-- Elementwise equality of JSON arrays. -/
def jsonListBeq : List Json → List Json → Bool
  | [], [] => true
  | x :: xs, y :: ys => jsonBeq x y && jsonListBeq xs ys
  | _, _ => false

/-- Fieldwise equality of JSON objects. -/
def jsonObjBeq : List (String × Json) → List (String × Json) → Bool
  | [], [] => true
  | (k1, v1) :: xs, (k2, v2) :: ys => k1 == k2 && jsonBeq v1 v2 && jsonObjBeq xs ys
  | _, _ => false

end

/-- Equality of possibly-undefined JSON values. -/
def optJsonBeq : Option Json → Option Json → Bool
  | none, none => true
  | some a, some b => jsonBeq a b
  | _, _ => false

/-- JS truthiness of a decoded JSON value: `null`, `false`, `0` and `""`
are falsy, everything else truthy. -/
def jsTruthy : Json → Bool
  | .null => false
  | .bool b => b
  | .num n => n != 0
  | .str s => s != ""
  | .arr _ => true
  | .obj _ => true

/-- First binding of a key in a JSON object's field list. -/
def lookupField : List (String × Json) → String → Option Json
  | [], _ => none
  | (k, v) :: rest, key => if k == key then some v else lookupField rest key

/-- JS property read `v.key`: throws a `TypeError` on `null`, yields the
field on an object carrying it, and `undefined` (`none`) otherwise. -/
def jsGetField (v : Json) (key : String) : Except String (Option Json) :=
  match v with
  | .null => .error "TypeError: Cannot read properties of null"
  | .obj l => .ok (lookupField l key)
  | _ => .ok none

/-- Property read on a value known not to be `null`: the field for objects,
`undefined` (`none`) for any other non-null value. -/
def jsFieldSafe (j : Json) (key : String) : Option Json :=
  match j with
  | .obj l => lookupField l key
  | _ => none

/-- A Monitor row as the dispatcher writes it: peer id plus the decoded
services snapshot. -/
structure MonitorRow where
  monitorId : String
  services : Json
deriving Repr

/-- A Peer row: the association `{peerId, serviceUrl}`. -/
structure PeerRow where
  peerId : String
  serviceUrl : Option Json
deriving Repr

/-- A HealthCheck row as created from a `/ibp/healthCheck` gossip
message. -/
structure GossipHealthCheck where
  monitorId : String
  serviceUrl : Option Json
  level : Json
  source : String
  record : Json
deriving Repr

/-- The datastore state the dispatcher mutates.  A Service row is the
announced descriptor verbatim. -/
structure Db where
  monitors : List MonitorRow
  services : List Json
  peers : List PeerRow
  healthChecks : List GossipHealthCheck
deriving Repr

/-- The empty datastore. -/
def emptyDb : Db := { monitors := [], services := [], peers := [], healthChecks := [] }

/-- Modelled from the spec: the datastore collaborator's `Monitor.upsert`
(`DataStore.js` is not part of the analysed sources).  Monitors are keyed
by `monitorId`; an upsert replaces the existing row or appends a new one. -/
def upsertMonitor (rows : List MonitorRow) (r : MonitorRow) : List MonitorRow :=
  if rows.any (fun x => x.monitorId == r.monitorId) then
    rows.map (fun x => if x.monitorId == r.monitorId then r else x)
  else rows ++ [r]

/-- The identity of a Service row: its `serviceUrl` field. -/
def serviceKeyOf (j : Json) : Option Json :=
  match j with
  | .obj l => lookupField l "serviceUrl"
  | _ => none

/-- Modelled from the spec: the datastore collaborator's `Service.upsert`.
Services are keyed by `serviceUrl`; an upsert replaces or appends. -/
def upsertService (rows : List Json) (r : Json) : List Json :=
  if rows.any (fun x => optJsonBeq (serviceKeyOf x) (serviceKeyOf r)) then
    rows.map (fun x => if optJsonBeq (serviceKeyOf x) (serviceKeyOf r) then r else x)
  else rows ++ [r]

/-- Modelled from the spec: the datastore collaborator's `Peer.upsert`.
Peers are keyed by the `(peerId, serviceUrl)` pair. -/
def upsertPeer (rows : List PeerRow) (r : PeerRow) : List PeerRow :=
  if rows.any (fun x => x.peerId == r.peerId && optJsonBeq x.serviceUrl r.serviceUrl) then
    rows.map (fun x =>
      if x.peerId == r.peerId && optJsonBeq x.serviceUrl r.serviceUrl then r else x)
  else rows ++ [r]

namespace MessageHandler

/-- The `/ibp/services` per-descriptor loop of `handleMessage`: for each
element, `Service.upsert(model)` then `Peer.upsert({peerId, serviceUrl:
model.serviceUrl})`; the property read `model.serviceUrl` can throw. -/
def processServices (fromPeer : String) : List Json → Db → Except String Db
  | [], db => .ok db
  | item :: rest, db =>
    let db1 := { db with services := upsertService db.services item }
    match jsGetField item "serviceUrl" with
    | .error e => .error e
    | .ok su =>
      processServices fromPeer rest
        { db1 with peers := upsertPeer db1.peers { peerId := fromPeer, serviceUrl := su } }

/-- `record.level || 'info'`. -/
def levelOr (lv : Option Json) : Json :=
  match lv with
  | some v => if jsTruthy v then v else Json.str "info"
  | none => Json.str "info"

/-- `MessageHandler.handleMessage(evt)`: dispatch on the topic.  `data` is
the outcome of `JSON.parse` on the payload bytes; the handler has no
try/catch, so a decode or property-access fault propagates out (the
`error` branch).  `/ibp/services`: upsert the sender's Monitor with the
decoded value (`|| []`) as its services snapshot, then process each array
element.  `/ibp/healthCheck`: create one HealthCheck row with
`source: 'gossip'`, the sender as `monitorId`, `record.level || 'info'`
and the decoded payload verbatim.  Any other topic: log only. -/
def handleMessage (topic fromPeer : String) (data : Except String Json)
    (db : Db) : Except String Db :=
  if topic = "/ibp/services" then
    match data with
    | .error e => .error e
    | .ok j =>
      let servicesVal := if jsTruthy j then j else Json.arr []
      let items := match servicesVal with | Json.arr l => l | _ => []
      let monitors1 := upsertMonitor db.monitors
        { monitorId := fromPeer, services := servicesVal }
      processServices fromPeer items { db with monitors := monitors1 }
  else if topic = "/ibp/healthCheck" then
    match data with
    | .error e => .error e
    | .ok record =>
      match jsGetField record "serviceUrl" with
      | .error e => .error e
      | .ok su =>
        match jsGetField record "level" with
        | .error e => .error e
        | .ok lv =>
          .ok { db with healthChecks := db.healthChecks ++
            [{ monitorId := fromPeer, serviceUrl := su, level := levelOr lv,
               source := "gossip", record := record }] }
  else .ok db

end MessageHandler

/-! ## Specification-side condition for rule 101 (refinement target)

Stated from the spec's own wording, to be compared with the engine's
behaviour: rule 101 fires iff `previous` and `otherMember` (as returned by
the two history queries) both exist, all three checks are `success`, all
three carry a `syncState`, `previous.currentBlock == current.currentBlock`
and `otherMember.currentBlock != current.currentBlock`. -/

/-- The spec's firing condition for rule 101 over given query results
`prev` and `other`: both present, all three `success`, all three carrying a
`syncState`, previous block equal to the current one and the other member's
block different from it. -/
def rule101CondOpt (cur : HealthCheck) (prev other : Option HealthCheck) : Prop :=
  ∃ p o ps cs os, prev = some p ∧ other = some o ∧
    p.status = some "success" ∧ cur.status = some "success" ∧ o.status = some "success" ∧
    p.record.syncState = some ps ∧ cur.record.syncState = some cs ∧
    o.record.syncState = some os ∧
    ps.currentBlock = cs.currentBlock ∧ os.currentBlock ≠ cs.currentBlock

/-- The spec's firing condition for alert rule 101. -/
def specRule101Cond (checks : List HealthCheck) (now : Int) (cur : HealthCheck) : Prop :=
  ∃ p o ps cs os,
    findPrevious checks cur now = some p ∧
    findOtherMember checks cur now = some o ∧
    p.status = some "success" ∧ cur.status = some "success" ∧
    o.status = some "success" ∧
    p.record.syncState = some ps ∧ cur.record.syncState = some cs ∧
    o.record.syncState = some os ∧
    ps.currentBlock = cs.currentBlock ∧ os.currentBlock ≠ cs.currentBlock

/-! ## Concrete sample inputs (used by witnesses and counterexamples) -/

/-- The check job of the spec's end-to-end scenario:
`member.serviceIpAddress = "10.0.0.5"`, `subdomain = "rpc-test"`. -/
def sampleJob : CheckJob :=
  { subdomain := "rpc-test"
    member := { id := "member1", serviceIpAddress := "10.0.0.5" }
    service := { id := "service1", chainId := "polkadot" }
    monitorId := "monitor1" }

/-- A transient (retryable) connection error. -/
def transientError : JsError :=
  { name := "TimeoutException", message := "connection timed out" }

/-- A check function that throws the transient error on every attempt. -/
def transientFn : Nat → CheckOutcome Unit :=
  fun _ => CheckOutcome.err transientError

/-- A definitive RPC-level rejection. -/
def rpcError : JsError :=
  { name := "RpcError", message := "method not found" }

/-- A check function that throws the non-retryable `RpcError` at once. -/
def rpcFn : Nat → CheckOutcome Unit :=
  fun _ => CheckOutcome.err rpcError

/-- A sample HealthCheck builder for concrete alert scenarios. -/
def sampleHC (id : Nat) (memberId serviceId : String) (status : Option String)
    (createdAt : Int) (currentBlock : Option Int) (finalizedBlock performance : Int) :
    HealthCheck :=
  { id := id, memberId := memberId, serviceId := serviceId, status := status
    createdAt := createdAt
    record :=
      { syncState := currentBlock.map fun b => { currentBlock := b }
        finalizedBlock := finalizedBlock
        performance := performance
        error := none } }

/-- Evaluation time of the concrete alert scenarios. -/
def sampleNow : Int := 1000000

/-- Current HealthCheck of the rule-101 scenario: success at block 500. -/
def sample101Cur : HealthCheck :=
  sampleHC 10 "m1" "s1" (some "success") sampleNow (some 500) 495 100

/-- Previous HealthCheck of the rule-101 scenario: same member/service,
success two minutes earlier, also at block 500 (stalled). -/
def sample101Prev : HealthCheck :=
  sampleHC 5 "m1" "s1" (some "success") (sampleNow - 120000) (some 500) 495 100

/-- Other-member HealthCheck of the rule-101 scenario: different member,
same service, success two minutes earlier, at block 600. -/
def sample101Other : HealthCheck :=
  sampleHC 6 "m2" "s1" (some "success") (sampleNow - 120000) (some 600) 595 100

/-- Stored history of the rule-101 scenario. -/
def sample101Checks : List HealthCheck := [sample101Prev, sample101Other]

/-- A success HealthCheck whose drift is exactly the configured threshold
(block 520 vs finalized 500, threshold 20). -/
def sampleDriftCur : HealthCheck :=
  sampleHC 11 "m1" "s1" (some "success") sampleNow (some 520) 500 100

/-- A success HealthCheck whose performance strictly exceeds the SLA. -/
def samplePerfCur : HealthCheck :=
  sampleHC 13 "m1" "s1" (some "success") sampleNow none 0 501

/-- A warning HealthCheck (slow response classified by the executor). -/
def sampleWarnCur : HealthCheck :=
  sampleHC 14 "m1" "s1" (some "warning") sampleNow (some 999) 0 9999

/-- The service descriptor of the spec's `/ibp/services` scenario. -/
def sampleDescriptor : Json :=
  Json.obj [("serviceUrl", Json.str "wss://a"), ("chainId", Json.str "polkadot")]

/-! # Theorems -/

/-! ## Retry wrapper and DNS pairing (check executor) -/

/-- Unfolding of `retryFn` when the current attempt succeeds. -/
theorem retryFn_step_ok {α : Type} (fn : Nat → CheckOutcome α) (job : CheckJob)
    (i : Int) (rl k : Nat) (r : α) (hfn : fn k = CheckOutcome.ok r) :
    retryFn fn job i rl k = (.fromCheck r, [CheckEv.attempt k]) := by
  rw [retryFn.eq_def]
  simp only [hfn]

/-- Unfolding of `retryFn` when the current attempt throws an `RpcError`:
immediate error result, whatever the remaining budget. -/
theorem retryFn_step_rpc {α : Type} (fn : Nat → CheckOutcome α) (job : CheckJob)
    (i : Int) (rl k : Nat) (er : JsError) (hfn : fn k = CheckOutcome.err er)
    (hname : er.name = "RpcError") :
    retryFn fn job i rl k = (.fromError (performCheckError er job), [CheckEv.attempt k]) := by
  rw [retryFn.eq_def]
  simp only [hfn]
  cases rl <;> simp [hname]

/-- Unfolding of `retryFn` when a transient error arrives with no retries
left. -/
theorem retryFn_step_exhausted {α : Type} (fn : Nat → CheckOutcome α) (job : CheckJob)
    (i : Int) (k : Nat) (er : JsError) (hfn : fn k = CheckOutcome.err er)
    (hname : er.name ≠ "RpcError") :
    retryFn fn job i 0 k = (.fromError (performCheckError er job), [CheckEv.attempt k]) := by
  rw [retryFn.eq_def]
  simp only [hfn]
  simp [hname]

/-- Unfolding of `retryFn` when a transient error arrives with budget left:
sleep once and recurse. -/
theorem retryFn_step_retry {α : Type} (fn : Nat → CheckOutcome α) (job : CheckJob)
    (i : Int) (n k : Nat) (er : JsError) (hfn : fn k = CheckOutcome.err er)
    (hname : er.name ≠ "RpcError") :
    retryFn fn job i (n + 1) k =
      ((retryFn fn job i n (k + 1)).1,
        CheckEv.attempt k :: CheckEv.delay i :: (retryFn fn job i n (k + 1)).2) := by
  rw [retryFn.eq_def]
  simp only [hfn]
  simp [hname]

/-- The full behaviour of `retryFn(fn, job, 3, interval)` on a check
function that throws a transient error on every attempt: four attempts
(indices 0-3) with three sleeps in between, ending in the error result for
the last error. -/
theorem retry_transient_trace {α : Type} (fn : Nat → CheckOutcome α) (job : CheckJob) (i : Int)
    (es : Nat → JsError) (hf : ∀ k, fn k = CheckOutcome.err (es k))
    (hn : ∀ k, (es k).name ≠ "RpcError") :
    retryFn fn job i 3 0 =
      (.fromError (performCheckError (es 3) job),
        [CheckEv.attempt 0, CheckEv.delay i, CheckEv.attempt 1, CheckEv.delay i,
         CheckEv.attempt 2, CheckEv.delay i, CheckEv.attempt 3]) := by
  have h0 := retryFn_step_retry fn job i 2 0 (es 0) (hf 0) (hn 0)
  have h1 := retryFn_step_retry fn job i 1 1 (es 1) (hf 1) (hn 1)
  have h2 := retryFn_step_retry fn job i 0 2 (es 2) (hf 2) (hn 2)
  have h3 := retryFn_step_exhausted fn job i 3 (es 3) (hf 3) (hn 3)
  norm_num at h0 h1 h2 h3
  rw [h0, h1, h2, h3]

/-- C2 (amended): a check whose function throws a transient (non-RpcError)
error on every attempt, run with the reference call `retryFn(fn, job, 3,
interval)`, performs exactly **four** attempts (the initial try plus the 3
retries of the budget) with three inter-attempt sleeps, and resolves to the
`performCheckError` result of the final error: `status: "error"`,
`record.performance: -1`. -/
theorem retry_transient_exhausts_four_attempts {α : Type} (fn : Nat → CheckOutcome α)
    (job : CheckJob) (i : Int) (es : Nat → JsError)
    (hf : ∀ k, fn k = CheckOutcome.err (es k)) (hn : ∀ k, (es k).name ≠ "RpcError") :
    (retryFn fn job i 3 0).1 = .fromError (performCheckError (es 3) job) ∧
    countAttempts (retryFn fn job i 3 0).2 = 4 ∧
    countDelays (retryFn fn job i 3 0).2 = 3 ∧
    (performCheckError (es 3) job).status = "error" ∧
    (performCheckError (es 3) job).record.performance = -1 := by
  have h := retry_transient_trace fn job i es hf hn
  rw [h]
  refine ⟨rfl, ?_, ?_, rfl, rfl⟩ <;> simp [countAttempts, countDelays, List.countP_cons]

/-- C2 (counterexample): on the always-transient check of the spec's
end-to-end scenario the wrapper performs 4 attempts, not the 3 the claim
states. -/
theorem retry_three_attempts_cex :
    countAttempts (retryFn transientFn sampleJob 1000 3 0).2 = 4 ∧
    ¬ countAttempts (retryFn transientFn sampleJob 1000 3 0).2 = 3 := by decide

/-- C2 (witness): the amended theorem instantiated on the concrete
always-transient check and the scenario's job. -/
theorem retry_transient_exhausts_four_attempts_witness :
    transientFn 0 = CheckOutcome.err transientError ∧
    transientError.name ≠ "RpcError" ∧
    (retryFn transientFn sampleJob 1000 3 0).1 =
      .fromError (performCheckError transientError sampleJob) ∧
    countAttempts (retryFn transientFn sampleJob 1000 3 0).2 = 4 ∧
    countDelays (retryFn transientFn sampleJob 1000 3 0).2 = 3 ∧
    (performCheckError transientError sampleJob).status = "error" ∧
    (performCheckError transientError sampleJob).record.performance = -1 := by
  have hT : transientError.name ≠ "RpcError" := by decide
  have h := retry_transient_exhausts_four_attempts transientFn sampleJob 1000
    (fun _ => transientError) (fun _ => rfl) (fun _ => hT)
  exact ⟨rfl, hT, h.1, h.2.1, h.2.2.1, h.2.2.2.1, h.2.2.2.2⟩

/-- C6: an error named `RpcError` on the first attempt short-circuits the
wrapper to the structured error result after exactly one attempt and no
sleep, whatever the remaining attempt budget `rl`. -/
theorem retry_rpc_error_short_circuits {α : Type} (fn : Nat → CheckOutcome α)
    (job : CheckJob) (i : Int) (rl : Nat) (er : JsError)
    (hf : fn 0 = CheckOutcome.err er) (hname : er.name = "RpcError") :
    (retryFn fn job i rl 0).1 = .fromError (performCheckError er job) ∧
    countAttempts (retryFn fn job i rl 0).2 = 1 ∧
    countDelays (retryFn fn job i rl 0).2 = 0 := by
  rw [retryFn_step_rpc fn job i rl 0 er hf hname]
  refine ⟨rfl, ?_, ?_⟩
  · show countAttempts [CheckEv.attempt 0] = 1
    decide
  · show countDelays [CheckEv.attempt 0] = 0
    decide

/-- C6 (witness): the short-circuit instantiated on a concrete `RpcError`
check with the reference budget 3. -/
theorem retry_rpc_error_short_circuits_witness :
    rpcFn 0 = CheckOutcome.err rpcError ∧ rpcError.name = "RpcError" ∧
    (retryFn rpcFn sampleJob 1000 3 0).1 =
      .fromError (performCheckError rpcError sampleJob) ∧
    countAttempts (retryFn rpcFn sampleJob 1000 3 0).2 = 1 ∧
    countDelays (retryFn rpcFn sampleJob 1000 3 0).2 = 0 := by
  have h := retry_rpc_error_short_circuits rpcFn sampleJob 1000 3 rpcError rfl rfl
  exact ⟨rfl, rfl, h.1, h.2.1, h.2.2⟩

/-- The retry trace contains no DNS events: the override/restore never
happens per attempt. -/
theorem retryFn_trace_dns_free {α : Type} (fn : Nat → CheckOutcome α) (job : CheckJob)
    (i : Int) : ∀ rl k, countSetDNS (retryFn fn job i rl k).2 = 0 ∧
      countClearDNS (retryFn fn job i rl k).2 = 0 := by
  intro rl
  induction rl with
  | zero =>
    intro k
    cases hfn : fn k with
    | ok r => rw [retryFn_step_ok fn job i 0 k r hfn]; simp [countSetDNS, countClearDNS]
    | err er =>
      by_cases hname : er.name = "RpcError"
      · rw [retryFn_step_rpc fn job i 0 k er hfn hname]; simp [countSetDNS, countClearDNS]
      · rw [retryFn_step_exhausted fn job i k er hfn hname]; simp [countSetDNS, countClearDNS]
  | succ n ih =>
    intro k
    cases hfn : fn k with
    | ok r => rw [retryFn_step_ok fn job i (n+1) k r hfn]; simp [countSetDNS, countClearDNS]
    | err er =>
      by_cases hname : er.name = "RpcError"
      · rw [retryFn_step_rpc fn job i (n+1) k er hfn hname]; simp [countSetDNS, countClearDNS]
      · rw [retryFn_step_retry fn job i n k er hfn hname]
        have h := ih (k + 1)
        simp only [countSetDNS, countClearDNS, List.countP_cons] at h ⊢
        simp [h.1, h.2]

/-- C7: on every invocation of `checkService` — success or failure,
including a check that throws on every attempt — the DNS override is
installed exactly once, before the retry sequence, and removed exactly
once, after it; the retry trace in between contains no DNS event. -/
theorem checkService_dns_override_paired {α : Type} (fn : Nat → CheckOutcome α)
    (job : CheckJob) :
    ∃ mid,
      (checkService fn job).2 =
        CheckEv.setDNS (getDomain job.subdomain) job.member.serviceIpAddress ::
          mid ++ [CheckEv.clearDNS (getDomain job.subdomain) job.member.serviceIpAddress] ∧
      countSetDNS mid = 0 ∧ countClearDNS mid = 0 ∧
      countSetDNS (checkService fn job).2 = 1 ∧
      countClearDNS (checkService fn job).2 = 1 := by
  have h := retryFn_trace_dns_free fn job (1 * 1000) 3 0
  have e : (checkService fn job).2 =
      CheckEv.setDNS (getDomain job.subdomain) job.member.serviceIpAddress ::
        (retryFn fn job (1 * 1000) 3 0).2 ++
          [CheckEv.clearDNS (getDomain job.subdomain) job.member.serviceIpAddress] := rfl
  have h1 := h.1
  have h2 := h.2
  simp only [countSetDNS, countClearDNS, List.countP_eq_zero] at h1 h2
  norm_num at h1 h2
  refine ⟨(retryFn fn job (1 * 1000) 3 0).2, e, h.1, h.2, ?_, ?_⟩
  · simp [e, countSetDNS, List.countP_cons, List.countP_append]
    exact h1
  · simp [e, countClearDNS, List.countP_cons, List.countP_append]
    exact h2

/-! ## Alerting engine rules (claims C1, C4, C5, C9) -/

/-- Rule 101 is suppressed when the `previous` query returns null. -/
theorem rule101_none_left (cur : HealthCheck) (other : Option HealthCheck) :
    rule101 cur none other = [] := by
  cases other <;> rfl

/-- Rule 101 is suppressed when the `otherMember` query returns null. -/
theorem rule101_none_right (cur : HealthCheck) (prev : Option HealthCheck) :
    rule101 cur prev none = [] := by
  cases prev <;> rfl

/-- Canonical form of the rule-101 block when both queries return rows. -/
theorem rule101_some_some (cur p o : HealthCheck) :
    rule101 cur (some p) (some o) =
      if p.status = some "success" ∧ cur.status = some "success" ∧
          o.status = some "success" then
        match p.record.syncState, cur.record.syncState, o.record.syncState with
        | some ps, some cs, some os =>
          if ps.currentBlock = cs.currentBlock ∧ os.currentBlock ≠ cs.currentBlock
          then [alertJob101 cur p cs] else []
        | _, _, _ => []
      else [] := by
  unfold rule101
  by_cases h : p.status = some "success" ∧ cur.status = some "success" ∧
      o.status = some "success"
  · have hs : cur.status.isSome = true := by rw [h.2.1]; rfl
    simp [h, hs]
  · by_cases hs : cur.status.isSome = true <;> simp [h, hs]

/-- Rule 101 produces a job exactly when the spec's condition over the two
query results holds. -/
theorem rule101_ne_nil_iff (cur : HealthCheck) (prev other : Option HealthCheck) :
    rule101 cur prev other ≠ [] ↔ rule101CondOpt cur prev other := by
  rcases prev with _ | p
  · simp [rule101_none_left, rule101CondOpt]
  rcases other with _ | o
  · simp [rule101_none_right, rule101CondOpt]
  rw [rule101_some_some]
  unfold rule101CondOpt
  rcases hps : p.record.syncState with _ | ps <;>
    rcases hcs : cur.record.syncState with _ | cs <;>
    rcases hos : o.record.syncState with _ | os <;>
    simp only [hps, hcs, hos, Option.some.injEq, ne_eq, reduceCtorEq, exists_eq_left] <;>
    split_ifs with h hb <;>
    simp_all

/-- Rule 101 produces either nothing or exactly the single job built from
`current` and `previous`. -/
theorem rule101_shape (cur : HealthCheck) (prev other : Option HealthCheck) :
    rule101 cur prev other = [] ∨
      ∃ p cs, prev = some p ∧ cur.record.syncState = some cs ∧
        rule101 cur prev other = [alertJob101 cur p cs] := by
  rcases prev with _ | p
  · exact Or.inl (rule101_none_left cur other)
  rcases other with _ | o
  · exact Or.inl (rule101_none_right cur _)
  rw [rule101_some_some]
  split_ifs with h
  · rcases hps : p.record.syncState with _ | ps <;>
      rcases hcs : cur.record.syncState with _ | cs <;>
      rcases hos : o.record.syncState with _ | os <;>
      simp [hps, hcs, hos] <;> tauto
  · exact Or.inl rfl

/-- Filtering a job list by a code none of its members carries yields
nothing. -/
theorem filter_eq_nil_of_codes {l : List AlertJob} {c₀ c : Nat}
    (hl : ∀ j ∈ l, j.code = c₀) (hc : c₀ ≠ c) :
    l.filter (fun j => j.code == c) = [] := by
  rw [List.filter_eq_nil_iff]
  intro j hj
  simp [hl j hj, hc]

/-- Filtering a job list by the code all its members carry keeps it
intact. -/
theorem filter_eq_self_of_codes {l : List AlertJob} {c : Nat}
    (hl : ∀ j ∈ l, j.code = c) :
    l.filter (fun j => j.code == c) = l := by
  rw [List.filter_eq_self]
  intro j hj
  simp [hl j hj]

/-- Every job of the rule-100 block carries code 100. -/
theorem mem_rule100_code (cur : HealthCheck) : ∀ j ∈ rule100 cur, j.code = 100 := by
  unfold rule100
  split <;> simp [alertJob100]

/-- Every job of the rule-101 block carries code 101. -/
theorem mem_rule101_code (cur : HealthCheck) (prev other : Option HealthCheck) :
    ∀ j ∈ rule101 cur prev other, j.code = 101 := by
  rcases rule101_shape cur prev other with h | ⟨p, cs, _, _, h⟩ <;>
    rw [h] <;> simp [alertJob101]

/-- Every job of the rule-102 block carries code 102. -/
theorem mem_rule102_code (cfg : AlertsCfg) (cur : HealthCheck) :
    ∀ j ∈ rule102 cfg cur, j.code = 102 := by
  unfold rule102
  split
  · rcases cur.record.syncState with _ | cs
    · simp
    · simp
      intro h
      rfl
  · simp

/-- Every job of the rule-103 block carries code 103. -/
theorem mem_rule103_code (cfg : AlertsCfg) (cur : HealthCheck) :
    ∀ j ∈ rule103 cfg cur, j.code = 103 := by
  unfold rule103
  split
  · split <;> simp [alertJob103]
  · simp

/-- With alerting enabled, `run` is the concatenation of the four rule
blocks evaluated in program order. -/
theorem run_split (cfg : AlertsCfg) (checks : List HealthCheck) (now : Int)
    (cur : HealthCheck) (hEn : cfg.alertsEngine.enabled = true) :
    AlertsEngine.run cfg checks now cur =
      rule100 cur ++
        rule101 cur (findPrevious checks cur now) (findOtherMember checks cur now) ++
        rule102 cfg cur ++ rule103 cfg cur := by
  unfold AlertsEngine.run
  simp [hEn]

/-- The rule-101 jobs of a `run` are exactly the output of the rule-101
block. -/
theorem run_filter_101 (cfg : AlertsCfg) (checks : List HealthCheck) (now : Int)
    (cur : HealthCheck) (hEn : cfg.alertsEngine.enabled = true) :
    (AlertsEngine.run cfg checks now cur).filter (fun j => j.code == 101) =
      rule101 cur (findPrevious checks cur now) (findOtherMember checks cur now) := by
  have f100 : (rule100 cur).filter (fun j => j.code == 101) = [] :=
    filter_eq_nil_of_codes (mem_rule100_code cur) (by decide)
  have f102 : (rule102 cfg cur).filter (fun j => j.code == 101) = [] :=
    filter_eq_nil_of_codes (mem_rule102_code cfg cur) (by decide)
  have f103 : (rule103 cfg cur).filter (fun j => j.code == 101) = [] :=
    filter_eq_nil_of_codes (mem_rule103_code cfg cur) (by decide)
  have f101 : (rule101 cur (findPrevious checks cur now)
      (findOtherMember checks cur now)).filter (fun j => j.code == 101) =
      rule101 cur (findPrevious checks cur now) (findOtherMember checks cur now) :=
    filter_eq_self_of_codes (mem_rule101_code cur _ _)
  rw [run_split cfg checks now cur hEn]
  simp [List.filter_append, f100, f101, f102, f103]

/-- The rule-102 jobs of a `run` are exactly the output of the rule-102
block. -/
theorem run_filter_102 (cfg : AlertsCfg) (checks : List HealthCheck) (now : Int)
    (cur : HealthCheck) (hEn : cfg.alertsEngine.enabled = true) :
    (AlertsEngine.run cfg checks now cur).filter (fun j => j.code == 102) =
      rule102 cfg cur := by
  have f100 : (rule100 cur).filter (fun j => j.code == 102) = [] :=
    filter_eq_nil_of_codes (mem_rule100_code cur) (by decide)
  have f101 : (rule101 cur (findPrevious checks cur now)
      (findOtherMember checks cur now)).filter (fun j => j.code == 102) = [] :=
    filter_eq_nil_of_codes (mem_rule101_code cur _ _) (by decide)
  have f103 : (rule103 cfg cur).filter (fun j => j.code == 102) = [] :=
    filter_eq_nil_of_codes (mem_rule103_code cfg cur) (by decide)
  have f102 : (rule102 cfg cur).filter (fun j => j.code == 102) = rule102 cfg cur :=
    filter_eq_self_of_codes (mem_rule102_code cfg cur)
  rw [run_split cfg checks now cur hEn]
  simp [List.filter_append, f100, f101, f102, f103]

/-- The rule-103 jobs of a `run` are exactly the output of the rule-103
block. -/
theorem run_filter_103 (cfg : AlertsCfg) (checks : List HealthCheck) (now : Int)
    (cur : HealthCheck) (hEn : cfg.alertsEngine.enabled = true) :
    (AlertsEngine.run cfg checks now cur).filter (fun j => j.code == 103) =
      rule103 cfg cur := by
  have f100 : (rule100 cur).filter (fun j => j.code == 103) = [] :=
    filter_eq_nil_of_codes (mem_rule100_code cur) (by decide)
  have f101 : (rule101 cur (findPrevious checks cur now)
      (findOtherMember checks cur now)).filter (fun j => j.code == 103) = [] :=
    filter_eq_nil_of_codes (mem_rule101_code cur _ _) (by decide)
  have f102 : (rule102 cfg cur).filter (fun j => j.code == 103) = [] :=
    filter_eq_nil_of_codes (mem_rule102_code cfg cur) (by decide)
  have f103 : (rule103 cfg cur).filter (fun j => j.code == 103) = rule103 cfg cur :=
    filter_eq_self_of_codes (mem_rule103_code cfg cur)
  rw [run_split cfg checks now cur hEn]
  simp [List.filter_append, f100, f101, f102, f103]

/-- C1: with alerting enabled, rule 101 enqueues a job if and only if the
`previous` and `otherMember` query results exist, all three checks are
`success`, all three carry a `syncState`, the previous block equals the
current one and the other member's block differs; and any enqueued rule-101
job is exactly one `alertJob101`, which carries
`healthChecks = [current, previous]`. -/
theorem alerts_rule101_fires_iff (cfg : AlertsCfg) (checks : List HealthCheck)
    (now : Int) (cur : HealthCheck) (hEn : cfg.alertsEngine.enabled = true) :
    ((AlertsEngine.run cfg checks now cur).filter (fun j => j.code == 101) ≠ [] ↔
      specRule101Cond checks now cur) ∧
    ∀ p cs, findPrevious checks cur now = some p → cur.record.syncState = some cs →
      (AlertsEngine.run cfg checks now cur).filter (fun j => j.code == 101) ≠ [] →
      (AlertsEngine.run cfg checks now cur).filter (fun j => j.code == 101) =
        [alertJob101 cur p cs] := by
  rw [run_filter_101 cfg checks now cur hEn]
  constructor
  · rw [rule101_ne_nil_iff]
    exact Iff.rfl
  · intro p cs hp hcs hne
    rcases rule101_shape cur (findPrevious checks cur now) (findOtherMember checks cur now)
      with h | ⟨p', cs', hp', hcs', h⟩
    · exact absurd h hne
    · rw [hp] at hp'
      injection hp' with e
      subst e
      rw [hcs] at hcs'
      injection hcs' with e2
      subst e2
      exact h

/-- C1 (witness): the biconditional instantiated on a concrete stalled-chain
history with the reference configuration enabled. -/
theorem alerts_rule101_fires_iff_witness :
    (referenceCfg true).alertsEngine.enabled = true ∧
    (((AlertsEngine.run (referenceCfg true) sample101Checks sampleNow sample101Cur).filter
        (fun j => j.code == 101) ≠ [] ↔
      specRule101Cond sample101Checks sampleNow sample101Cur) ∧
    ∀ p cs, findPrevious sample101Checks sample101Cur sampleNow = some p →
      sample101Cur.record.syncState = some cs →
      (AlertsEngine.run (referenceCfg true) sample101Checks sampleNow sample101Cur).filter
        (fun j => j.code == 101) ≠ [] →
      (AlertsEngine.run (referenceCfg true) sample101Checks sampleNow sample101Cur).filter
        (fun j => j.code == 101) = [alertJob101 sample101Cur p cs]) :=
  ⟨rfl, alerts_rule101_fires_iff (referenceCfg true) sample101Checks sampleNow sample101Cur rfl⟩

/-- Rule 102 produces a job exactly on a `success` check with a defined
`syncState` whose drift reaches the threshold. -/
theorem rule102_ne_nil_iff (cfg : AlertsCfg) (cur : HealthCheck) :
    rule102 cfg cur ≠ [] ↔
      cur.status = some "success" ∧ ∃ cs, cur.record.syncState = some cs ∧
        cfg.alertsEngine.blockDrift ≤ cs.currentBlock - cur.record.finalizedBlock := by
  unfold rule102
  by_cases hs : cur.status = some "success"
  · rcases hcs : cur.record.syncState with _ | cs <;> simp [hs, hcs]
  · simp [hs]

/-- Rule 102 produces either nothing or exactly the single drift job. -/
theorem rule102_shape (cfg : AlertsCfg) (cur : HealthCheck) :
    rule102 cfg cur = [] ∨
      ∃ cs, cur.record.syncState = some cs ∧
        rule102 cfg cur = [alertJob102 cur (cs.currentBlock - cur.record.finalizedBlock)] := by
  unfold rule102
  by_cases hs : cur.status = some "success"
  · rcases hcs : cur.record.syncState with _ | cs <;> simp [hs, hcs]
    omega
  · simp [hs]

/-- C4: with alerting enabled, rule 102 enqueues a job (code 102, severity
medium, by definition of `alertJob102`) if and only if the check is
`success`, carries a `syncState`, and
`syncState.currentBlock - record.finalizedBlock` is at least the configured
`blockDrift` threshold — in particular at exactly the threshold. -/
theorem alerts_rule102_fires_iff (cfg : AlertsCfg) (checks : List HealthCheck)
    (now : Int) (cur : HealthCheck) (hEn : cfg.alertsEngine.enabled = true) :
    ((AlertsEngine.run cfg checks now cur).filter (fun j => j.code == 102) ≠ [] ↔
      cur.status = some "success" ∧ ∃ cs, cur.record.syncState = some cs ∧
        cfg.alertsEngine.blockDrift ≤ cs.currentBlock - cur.record.finalizedBlock) ∧
    ∀ cs, cur.record.syncState = some cs →
      (AlertsEngine.run cfg checks now cur).filter (fun j => j.code == 102) ≠ [] →
      (AlertsEngine.run cfg checks now cur).filter (fun j => j.code == 102) =
        [alertJob102 cur (cs.currentBlock - cur.record.finalizedBlock)] := by
  rw [run_filter_102 cfg checks now cur hEn]
  refine ⟨rule102_ne_nil_iff cfg cur, ?_⟩
  intro cs hcs hne
  rcases rule102_shape cfg cur with h | ⟨cs', hcs', h⟩
  · exact absurd h hne
  · rw [hcs] at hcs'
    injection hcs' with e
    subst e
    exact h

/-- C4 (witness): instantiated on a check whose drift equals the reference
threshold (20) exactly, with alerting enabled. -/
theorem alerts_rule102_fires_iff_witness :
    (referenceCfg true).alertsEngine.enabled = true ∧
    (((AlertsEngine.run (referenceCfg true) [] sampleNow sampleDriftCur).filter
        (fun j => j.code == 102) ≠ [] ↔
      sampleDriftCur.status = some "success" ∧
        ∃ cs, sampleDriftCur.record.syncState = some cs ∧
          (referenceCfg true).alertsEngine.blockDrift ≤
            cs.currentBlock - sampleDriftCur.record.finalizedBlock) ∧
    ∀ cs, sampleDriftCur.record.syncState = some cs →
      (AlertsEngine.run (referenceCfg true) [] sampleNow sampleDriftCur).filter
        (fun j => j.code == 102) ≠ [] →
      (AlertsEngine.run (referenceCfg true) [] sampleNow sampleDriftCur).filter
        (fun j => j.code == 102) =
        [alertJob102 sampleDriftCur
          (cs.currentBlock - sampleDriftCur.record.finalizedBlock)]) :=
  ⟨rfl, alerts_rule102_fires_iff (referenceCfg true) [] sampleNow sampleDriftCur rfl⟩

/-- Rule 103 produces a job exactly on a `success` check whose performance
strictly exceeds the SLA. -/
theorem rule103_ne_nil_iff (cfg : AlertsCfg) (cur : HealthCheck) :
    rule103 cfg cur ≠ [] ↔
      cur.status = some "success" ∧ cfg.sla < cur.record.performance := by
  unfold rule103
  by_cases hs : cur.status = some "success"
  · split_ifs with hp <;> simp [hs, hp]
  · simp [hs]

/-- Rule 103 produces either nothing or exactly the single SLA job. -/
theorem rule103_shape (cfg : AlertsCfg) (cur : HealthCheck) :
    rule103 cfg cur = [] ∨ rule103 cfg cur = [alertJob103 cur] := by
  unfold rule103
  split_ifs <;> simp

/-- C5: with alerting enabled, rule 103 enqueues a job (code 103, severity
low, by definition of `alertJob103`) if and only if the check is `success`
and `record.performance` strictly exceeds the configured SLA; at
`performance = sla` exactly, no job is enqueued. -/
theorem alerts_rule103_fires_iff (cfg : AlertsCfg) (checks : List HealthCheck)
    (now : Int) (cur : HealthCheck) (hEn : cfg.alertsEngine.enabled = true) :
    ((AlertsEngine.run cfg checks now cur).filter (fun j => j.code == 103) ≠ [] ↔
      cur.status = some "success" ∧ cfg.sla < cur.record.performance) ∧
    ((AlertsEngine.run cfg checks now cur).filter (fun j => j.code == 103) ≠ [] →
      (AlertsEngine.run cfg checks now cur).filter (fun j => j.code == 103) =
        [alertJob103 cur]) ∧
    (cur.record.performance = cfg.sla →
      (AlertsEngine.run cfg checks now cur).filter (fun j => j.code == 103) = []) := by
  rw [run_filter_103 cfg checks now cur hEn]
  refine ⟨rule103_ne_nil_iff cfg cur, ?_, ?_⟩
  · intro hne
    rcases rule103_shape cfg cur with h | h
    · exact absurd h hne
    · exact h
  · intro heq
    by_cases hne : rule103 cfg cur = []
    · exact hne
    · exfalso
      rcases (rule103_ne_nil_iff cfg cur).mp hne with ⟨_, hlt⟩
      rw [heq] at hlt
      exact lt_irrefl _ hlt

/-- C5 (witness): instantiated on a check with performance 501 against the
reference SLA of 500, with alerting enabled. -/
theorem alerts_rule103_fires_iff_witness :
    (referenceCfg true).alertsEngine.enabled = true ∧
    (((AlertsEngine.run (referenceCfg true) [] sampleNow samplePerfCur).filter
        (fun j => j.code == 103) ≠ [] ↔
      samplePerfCur.status = some "success" ∧
        (referenceCfg true).sla < samplePerfCur.record.performance) ∧
    ((AlertsEngine.run (referenceCfg true) [] sampleNow samplePerfCur).filter
        (fun j => j.code == 103) ≠ [] →
      (AlertsEngine.run (referenceCfg true) [] sampleNow samplePerfCur).filter
        (fun j => j.code == 103) = [alertJob103 samplePerfCur]) ∧
    (samplePerfCur.record.performance = (referenceCfg true).sla →
      (AlertsEngine.run (referenceCfg true) [] sampleNow samplePerfCur).filter
        (fun j => j.code == 103) = [])) :=
  ⟨rfl, alerts_rule103_fires_iff (referenceCfg true) [] sampleNow samplePerfCur rfl⟩

/-- C9: a HealthCheck with status `warning` triggers no alert rule at all,
and the executor classifies a response slower than the SLA as `warning` —
so a slow local check can never trigger the rule-103 alert. -/
theorem warning_never_alerts (cfg : AlertsCfg) (checks : List HealthCheck)
    (now : Int) (cur : HealthCheck) (timing : Int) (sla : Option Int)
    (hw : cur.status = some "warning") (ht : slaOrDefault sla < timing) :
    AlertsEngine.run cfg checks now cur = [] ∧
    performCheckStatus timing sla = "warning" := by
  constructor
  · have h100 : rule100 cur = [] := by unfold rule100; simp [hw]
    have h101 : rule101 cur (findPrevious checks cur now)
        (findOtherMember checks cur now) = [] := by
      by_cases hne : rule101 cur (findPrevious checks cur now)
          (findOtherMember checks cur now) = []
      · exact hne
      · exfalso
        rcases (rule101_ne_nil_iff cur _ _).mp hne with
          ⟨p, o, ps, cs, os, _, _, _, hcur, _⟩
        rw [hw] at hcur
        simp at hcur
    have h102 : rule102 cfg cur = [] := by unfold rule102; simp [hw]
    have h103 : rule103 cfg cur = [] := by unfold rule103; simp [hw]
    unfold AlertsEngine.run
    split_ifs with hd
    · rfl
    · rw [h100, h101, h102, h103]
      rfl
  · unfold performCheckStatus
    simp [ht]

/-- C9 (witness): instantiated on a concrete warning check (9999 ms) and a
timing of 501 ms against the reference SLA. -/
theorem warning_never_alerts_witness :
    sampleWarnCur.status = some "warning" ∧
    slaOrDefault (some 500) < 501 ∧
    (AlertsEngine.run (referenceCfg true) sample101Checks sampleNow sampleWarnCur = [] ∧
      performCheckStatus 501 (some 500) = "warning") :=
  ⟨rfl, by decide, warning_never_alerts (referenceCfg true) sample101Checks sampleNow
    sampleWarnCur 501 (some 500) rfl (by decide)⟩

/-! ## Gossip dispatcher (claims C3, C8, C10) -/

mutual

/-- `jsonBeq` is sound: equal-by-bits values are equal. -/
theorem jsonBeq_eq : (a b : Json) → jsonBeq a b = true → a = b
  | .null, b, h => by cases b <;> simp [jsonBeq] at h <;> rfl
  | .bool a, b, h => by cases b <;> simp [jsonBeq] at h <;> exact congrArg Json.bool h
  | .num a, b, h => by cases b <;> simp [jsonBeq] at h <;> exact congrArg Json.num h
  | .str a, b, h => by cases b <;> simp [jsonBeq] at h <;> exact congrArg Json.str h
  | .arr a, b, h => by
      cases b <;> simp [jsonBeq] at h
      exact congrArg Json.arr (jsonListBeq_eq a _ h)
  | .obj a, b, h => by
      cases b <;> simp [jsonBeq] at h
      exact congrArg Json.obj (jsonObjBeq_eq a _ h)

/-- `jsonListBeq` is sound. -/
theorem jsonListBeq_eq : (a b : List Json) → jsonListBeq a b = true → a = b
  | [], [], _ => rfl
  | [], _ :: _, h => by simp [jsonListBeq] at h
  | _ :: _, [], h => by simp [jsonListBeq] at h
  | x :: xs, y :: ys, h => by
      have h' : jsonBeq x y = true ∧ jsonListBeq xs ys = true := by
        simpa [jsonListBeq, Bool.and_eq_true] using h
      rw [jsonBeq_eq x y h'.1, jsonListBeq_eq xs ys h'.2]

/-- `jsonObjBeq` is sound. -/
theorem jsonObjBeq_eq : (a b : List (String × Json)) → jsonObjBeq a b = true → a = b
  | [], [], _ => rfl
  | [], _ :: _, h => by simp [jsonObjBeq] at h
  | _ :: _, [], h => by simp [jsonObjBeq] at h
  | (k1, v1) :: xs, (k2, v2) :: ys, h => by
      have h' : (k1 == k2) = true ∧ jsonBeq v1 v2 = true ∧ jsonObjBeq xs ys = true := by
        simpa [jsonObjBeq, Bool.and_eq_true, and_assoc] using h
      have hk : k1 = k2 := by simpa using h'.1
      rw [hk, jsonBeq_eq v1 v2 h'.2.1, jsonObjBeq_eq xs ys h'.2.2]

end

mutual

/-- `jsonBeq` is reflexive. -/
theorem jsonBeq_refl : (a : Json) → jsonBeq a a = true
  | .null => rfl
  | .bool b => by simp [jsonBeq]
  | .num n => by simp [jsonBeq]
  | .str s => by simp [jsonBeq]
  | .arr l => by simp [jsonBeq]; exact jsonListBeq_refl l
  | .obj l => by simp [jsonBeq]; exact jsonObjBeq_refl l

/-- `jsonListBeq` is reflexive. -/
theorem jsonListBeq_refl : (l : List Json) → jsonListBeq l l = true
  | [] => rfl
  | x :: xs => by simp [jsonListBeq, Bool.and_eq_true]; exact ⟨jsonBeq_refl x, jsonListBeq_refl xs⟩

/-- `jsonObjBeq` is reflexive. -/
theorem jsonObjBeq_refl : (l : List (String × Json)) → jsonObjBeq l l = true
  | [] => rfl
  | (k, v) :: xs => by
      simp [jsonObjBeq, Bool.and_eq_true]
      exact ⟨jsonBeq_refl v, jsonObjBeq_refl xs⟩

end

/-- `jsonBeq` decides equality of JSON values. -/
theorem jsonBeq_iff (a b : Json) : jsonBeq a b = true ↔ a = b :=
  ⟨jsonBeq_eq a b, fun h => h ▸ jsonBeq_refl a⟩

/-- `optJsonBeq` decides equality of possibly-undefined JSON values. -/
theorem optJsonBeq_iff (a b : Option Json) : optJsonBeq a b = true ↔ a = b := by
  rcases a with _ | a <;> rcases b with _ | b <;> simp [optJsonBeq, jsonBeq_iff]

/-- After a Service upsert, a row with the upserted descriptor's key is
present. -/
theorem upsertService_key_present (rows : List Json) (r : Json) :
    ∃ x ∈ upsertService rows r, serviceKeyOf x = serviceKeyOf r := by
  unfold upsertService
  split_ifs with h
  · rcases List.any_eq_true.mp h with ⟨x, hx, hpx⟩
    exact ⟨r, List.mem_map.mpr ⟨x, hx, by simp [hpx]⟩, rfl⟩
  · exact ⟨r, by simp, rfl⟩

/-- A Service upsert preserves presence of any service key. -/
theorem upsertService_key_mono (rows : List Json) (r : Json) (k : Option Json)
    (hk : ∃ x ∈ rows, serviceKeyOf x = k) :
    ∃ x ∈ upsertService rows r, serviceKeyOf x = k := by
  rcases hk with ⟨x, hx, hkx⟩
  unfold upsertService
  split_ifs with h
  · by_cases hc : optJsonBeq (serviceKeyOf x) (serviceKeyOf r) = true
    · have he : serviceKeyOf x = serviceKeyOf r := (optJsonBeq_iff _ _).mp hc
      exact ⟨r, List.mem_map.mpr ⟨x, hx, by simp [hc]⟩, by rw [← he, hkx]⟩
    · exact ⟨x, List.mem_map.mpr ⟨x, hx, by simp [hc]⟩, hkx⟩
  · exact ⟨x, List.mem_append_left _ hx, hkx⟩

/-- After a Peer upsert, a row with the upserted pair's key is present. -/
theorem upsertPeer_present (rows : List PeerRow) (r : PeerRow) :
    ∃ x ∈ upsertPeer rows r, x.peerId = r.peerId ∧ x.serviceUrl = r.serviceUrl := by
  unfold upsertPeer
  split_ifs with h
  · rcases List.any_eq_true.mp h with ⟨x, hx, hpx⟩
    exact ⟨r, List.mem_map.mpr ⟨x, hx, by simp [hpx]⟩, rfl, rfl⟩
  · exact ⟨r, by simp, rfl, rfl⟩

/-- A Peer upsert preserves presence of any `(peerId, serviceUrl)` key. -/
theorem upsertPeer_mono (rows : List PeerRow) (r : PeerRow) (pid : String)
    (k : Option Json) (hk : ∃ x ∈ rows, x.peerId = pid ∧ x.serviceUrl = k) :
    ∃ x ∈ upsertPeer rows r, x.peerId = pid ∧ x.serviceUrl = k := by
  rcases hk with ⟨x, hx, hk1, hk2⟩
  unfold upsertPeer
  split_ifs with h
  · by_cases hc : (x.peerId == r.peerId && optJsonBeq x.serviceUrl r.serviceUrl) = true
    · rcases (Bool.and_eq_true _ _).mp hc with ⟨hc1, hc2⟩
      have he1 : x.peerId = r.peerId := by simpa using hc1
      have he2 : x.serviceUrl = r.serviceUrl := (optJsonBeq_iff _ _).mp hc2
      exact ⟨r, List.mem_map.mpr ⟨x, hx, by simp [hc]⟩,
        by rw [← he1, hk1], by rw [← he2, hk2]⟩
    · exact ⟨x, List.mem_map.mpr ⟨x, hx, by simp [hc]⟩, hk1, hk2⟩
  · exact ⟨x, List.mem_append_left _ hx, hk1, hk2⟩

open MessageHandler

/-- Unfolding of the per-descriptor loop on a non-empty list. -/
theorem processServices_cons (fp : String) (item : Json) (rest : List Json) (db : Db) :
    processServices fp (item :: rest) db =
      match jsGetField item "serviceUrl" with
      | .error e => .error e
      | .ok su => processServices fp rest
          { monitors := db.monitors
            services := upsertService db.services item
            peers := upsertPeer db.peers { peerId := fp, serviceUrl := su }
            healthChecks := db.healthChecks } := by
  rcases item with _ | b | n | s | elems | fields <;> rfl

/-- The loop propagates a property-access fault on the head descriptor. -/
theorem processServices_cons_err (fp : String) (item : Json) (rest : List Json)
    (db : Db) (e : String) (hg : jsGetField item "serviceUrl" = .error e) :
    processServices fp (item :: rest) db = .error e := by
  have h := processServices_cons fp item rest db
  rw [hg] at h
  exact h

/-- The loop on a readable head descriptor upserts its Service and Peer
rows and continues. -/
theorem processServices_cons_ok (fp : String) (item : Json) (rest : List Json)
    (db : Db) (su : Option Json) (hg : jsGetField item "serviceUrl" = .ok su) :
    processServices fp (item :: rest) db =
      processServices fp rest
        { monitors := db.monitors
          services := upsertService db.services item
          peers := upsertPeer db.peers { peerId := fp, serviceUrl := su }
          healthChecks := db.healthChecks } := by
  have h := processServices_cons fp item rest db
  rw [hg] at h
  exact h

/-- The per-descriptor loop never touches the Monitor table. -/
theorem processServices_monitors (fp : String) : ∀ (items : List Json) (db db' : Db),
    processServices fp items db = Except.ok db' → db'.monitors = db.monitors := by
  intro items
  induction items with
  | nil =>
    intro db db' h
    injection h with h
    rw [← h]
  | cons item rest ih =>
    intro db db' h
    rcases hg : jsGetField item "serviceUrl" with e | su
    · rw [processServices_cons_err fp item rest db e hg] at h
      exact absurd h (by simp)
    · rw [processServices_cons_ok fp item rest db su hg] at h
      have hm := ih _ _ h
      exact hm

/-- The per-descriptor loop preserves presence of any service key. -/
theorem processServices_service_mono (fp : String) (k : Option Json) :
    ∀ (items : List Json) (db db' : Db),
    processServices fp items db = Except.ok db' →
    (∃ x ∈ db.services, serviceKeyOf x = k) →
    ∃ x ∈ db'.services, serviceKeyOf x = k := by
  intro items
  induction items with
  | nil =>
    intro db db' h hk
    injection h with h
    rw [← h]
    exact hk
  | cons item rest ih =>
    intro db db' h hk
    rcases hg : jsGetField item "serviceUrl" with e | su
    · rw [processServices_cons_err fp item rest db e hg] at h
      exact absurd h (by simp)
    · rw [processServices_cons_ok fp item rest db su hg] at h
      exact ih _ _ h (upsertService_key_mono db.services item k hk)

/-- The per-descriptor loop preserves presence of any peer key. -/
theorem processServices_peer_mono (fp pid : String) (k : Option Json) :
    ∀ (items : List Json) (db db' : Db),
    processServices fp items db = Except.ok db' →
    (∃ x ∈ db.peers, x.peerId = pid ∧ x.serviceUrl = k) →
    ∃ x ∈ db'.peers, x.peerId = pid ∧ x.serviceUrl = k := by
  intro items
  induction items with
  | nil =>
    intro db db' h hk
    injection h with h
    rw [← h]
    exact hk
  | cons item rest ih =>
    intro db db' h hk
    rcases hg : jsGetField item "serviceUrl" with e | su
    · rw [processServices_cons_err fp item rest db e hg] at h
      exact absurd h (by simp)
    · rw [processServices_cons_ok fp item rest db su hg] at h
      exact ih _ _ h (upsertPeer_mono db.peers _ pid k hk)

/-- The per-descriptor loop on a list of objects succeeds, leaves Monitors
untouched, and leaves a Service row and a Peer row for every descriptor's
`serviceUrl`. -/
theorem processServices_spec (fp : String) : ∀ (items : List Json) (db : Db),
    (∀ item ∈ items, ∃ l, item = Json.obj l) →
    ∃ db', processServices fp items db = Except.ok db' ∧
      db'.monitors = db.monitors ∧
      ∀ item ∈ items,
        (∃ srow ∈ db'.services, serviceKeyOf srow = serviceKeyOf item) ∧
        (∃ prow ∈ db'.peers, prow.peerId = fp ∧ prow.serviceUrl = serviceKeyOf item) := by
  intro items
  induction items with
  | nil =>
    intro db _
    exact ⟨db, rfl, rfl, by simp⟩
  | cons item rest ih =>
    intro db hobj
    rcases hobj item (by simp) with ⟨l, rfl⟩
    obtain ⟨db', hrun, hmon, hmem⟩ := ih
      { monitors := db.monitors
        services := upsertService db.services (Json.obj l)
        peers := upsertPeer db.peers
          { peerId := fp, serviceUrl := lookupField l "serviceUrl" }
        healthChecks := db.healthChecks }
      (fun it hit => hobj it (List.mem_cons_of_mem _ hit))
    refine ⟨db', ?_, hmon, ?_⟩
    · rw [processServices_cons_ok fp (Json.obj l) rest db (lookupField l "serviceUrl") rfl]
      exact hrun
    · intro it hit
      rcases List.mem_cons.mp hit with rfl | hit'
      · refine ⟨?_, ?_⟩
        · exact processServices_service_mono fp (serviceKeyOf (Json.obj l)) rest _ db' hrun
            (upsertService_key_present db.services (Json.obj l))
        · exact processServices_peer_mono fp fp (serviceKeyOf (Json.obj l)) rest _ db' hrun
            (upsertPeer_present db.peers
              { peerId := fp, serviceUrl := lookupField l "serviceUrl" })
      · exact hmem it hit'

/-- C8: an `/ibp/services` message from a peer carrying an array of
object descriptors upserts the sender's Monitor with the decoded array as
its services snapshot and, for each descriptor in order, upserts a Service
row (keyed by its `serviceUrl`) and a Peer row linking the sender to that
`serviceUrl`. -/
theorem services_message_upserts (fromPeer : String) (items : List Json) (db : Db)
    (hobj : ∀ item ∈ items, ∃ l, item = Json.obj l) :
    ∃ db', handleMessage "/ibp/services" fromPeer
        (Except.ok (Json.arr items)) db = Except.ok db' ∧
      db'.monitors = upsertMonitor db.monitors
        { monitorId := fromPeer, services := Json.arr items } ∧
      ∀ item ∈ items,
        (∃ srow ∈ db'.services, serviceKeyOf srow = serviceKeyOf item) ∧
        (∃ prow ∈ db'.peers, prow.peerId = fromPeer ∧
          prow.serviceUrl = serviceKeyOf item) := by
  obtain ⟨db', hrun, hmon, hmem⟩ := processServices_spec fromPeer items
    (Db.mk (upsertMonitor db.monitors (MonitorRow.mk fromPeer (Json.arr items)))
      db.services db.peers db.healthChecks) hobj
  refine ⟨db', ?_, ?_, hmem⟩
  · unfold handleMessage
    rw [if_pos rfl]
    exact hrun
  · exact hmon

/-- C8 (witness): the spec's end-to-end scenario — publishing
`[{serviceUrl: "wss://a", chainId: "polkadot"}]` from peer P1 into an empty
datastore. -/
theorem services_message_upserts_witness :
    (∀ item ∈ [sampleDescriptor], ∃ l, item = Json.obj l) ∧
    ∃ db', handleMessage "/ibp/services" "P1"
        (Except.ok (Json.arr [sampleDescriptor])) emptyDb = Except.ok db' ∧
      db'.monitors = upsertMonitor emptyDb.monitors
        { monitorId := "P1", services := Json.arr [sampleDescriptor] } ∧
      ∀ item ∈ [sampleDescriptor],
        (∃ srow ∈ db'.services, serviceKeyOf srow = serviceKeyOf item) ∧
        (∃ prow ∈ db'.peers, prow.peerId = "P1" ∧
          prow.serviceUrl = serviceKeyOf item) := by
  have hobj : ∀ item ∈ [sampleDescriptor], ∃ l, item = Json.obj l := by
    intro item hit
    rw [List.mem_singleton] at hit
    subst hit
    exact ⟨_, rfl⟩
  exact ⟨hobj, services_message_upserts "P1" [sampleDescriptor] emptyDb hobj⟩

/-- C3: `handleMessage` has no try/catch — a `/ibp/healthCheck` payload
whose `JSON.parse` throws propagates the exception out of the handler
(no HealthCheck row is created, but the fault is not caught at the
dispatcher boundary as the spec requires). -/
theorem healthCheck_decode_fault_propagates (fromPeer : String) (msg : String) (db : Db) :
    handleMessage "/ibp/healthCheck" fromPeer (Except.error msg) db = Except.error msg := by
  unfold handleMessage
  rw [if_neg (by decide), if_pos rfl]

/-- On a non-null value a JS property read returns normally. -/
theorem jsFieldSafe_spec (j : Json) (key : String) (h : j ≠ Json.null) :
    jsGetField j key = .ok (jsFieldSafe j key) := by
  cases j <;> first | rfl | exact absurd rfl h

/-- C10 (counterexample): the payload `null` parses as JSON, yet
`record.serviceUrl` then throws a TypeError, so no HealthCheck row is
created. -/
theorem healthCheck_null_payload_cex :
    MessageHandler.handleMessage "/ibp/healthCheck" "P1" (Except.ok Json.null) emptyDb =
      Except.error "TypeError: Cannot read properties of null" := by
  rfl

/-- C10 (amended): every `/ibp/healthCheck` payload that parses to a
non-null JSON value creates exactly one HealthCheck row: source `gossip`,
`monitorId` the sender, `serviceUrl` the record's field (undefined when
absent — no schema validation), `level` the record's field when truthy and
`"info"` otherwise, and the decoded payload stored verbatim. -/
theorem healthCheck_gossip_inserts_row (fromPeer : String) (j : Json) (db : Db)
    (h : j ≠ Json.null) :
    handleMessage "/ibp/healthCheck" fromPeer (Except.ok j) db =
      Except.ok { db with healthChecks := db.healthChecks ++
        [{ monitorId := fromPeer,
           serviceUrl := jsFieldSafe j "serviceUrl",
           level := levelOr (jsFieldSafe j "level"),
           source := "gossip", record := j }] } := by
  unfold handleMessage
  rw [if_neg (by decide), if_pos rfl]
  simp only [jsFieldSafe_spec j "serviceUrl" h, jsFieldSafe_spec j "level" h]

/-- C10 (witness): a well-formed JSON object lacking `serviceUrl` still
produces a row, with `serviceUrl` undefined and level `"info"`. -/
theorem healthCheck_gossip_inserts_row_witness :
    (Json.obj [("x", Json.num 1)] ≠ Json.null) ∧
    handleMessage "/ibp/healthCheck" "P1"
        (Except.ok (Json.obj [("x", Json.num 1)])) emptyDb =
      Except.ok { emptyDb with healthChecks := emptyDb.healthChecks ++
        [{ monitorId := "P1",
           serviceUrl := jsFieldSafe (Json.obj [("x", Json.num 1)]) "serviceUrl",
           level := levelOr (jsFieldSafe (Json.obj [("x", Json.num 1)]) "level"),
           source := "gossip", record := Json.obj [("x", Json.num 1)] }] } :=
  ⟨fun h => Json.noConfusion h,
    healthCheck_gossip_inserts_row "P1" (Json.obj [("x", Json.num 1)]) emptyDb
      (fun h => Json.noConfusion h)⟩
